import Mathlib

/-!
Verification of the privilege/membership reconciliation logic of the
`playbooks/library/postgresql_user.py` and
`playbooks/library/postgresql_membership.py` modules.

The Python functions are shallowly embedded: database reads
(`cursor.execute` of catalog queries) are abstracted by oracle record
fields, write statements become structured statement values, and the
connection-driver exceptions become explicit outcome constructors.
-/

/-- Object scope of a privilege: the `type_` key of the Python privilege
dictionaries, either `table` or `database`. -/
inductive PrivType
  | table
  | database
deriving DecidableEq, Repr

/-- `VALID_PRIVS` from `postgresql_user.py` (lines 264-267): the valid
privilege tokens per object type. -/
def VALID_PRIVS : PrivType → Finset String
  | PrivType.table =>
      {"SELECT", "INSERT", "UPDATE", "DELETE", "TRUNCATE", "REFERENCES", "TRIGGER", "ALL"}
  | PrivType.database =>
      {"CREATE", "CONNECT", "TEMPORARY", "TEMP", "ALL"}

/-- `normalize_privileges(privs, type_)` (lines 722-731): expand the `ALL`
macro into the valid set for the object type and rewrite `TEMP` into
`TEMPORARY`.  Mirrors the two `if ... in` blocks of the source, in order. -/
def normalize_privileges (privs : Finset String) (t : PrivType) : Finset String :=
  let new1 := if "ALL" ∈ privs then (privs ∪ VALID_PRIVS t).erase "ALL" else privs
  if "TEMP" ∈ new1 then (insert "TEMPORARY" new1).erase "TEMP" else new1

/-- Database-state oracle: results of the read-only catalog queries issued by
`get_table_privileges` (lines 554-562) and the ACL decoding loop of
`get_database_privileges` (lines 583-600).  `databasePrivs` is the raw set
decoded from the `datacl` regular-expression match, before normalization. -/
structure Db where
  tablePrivs : String → String → Finset String
  databasePrivs : String → String → Finset String

/-- `get_table_privileges(cursor, user, table)`: the catalog query against
`information_schema.role_table_grants` is absorbed by the oracle. -/
def get_table_privileges (db : Db) (user table : String) : Finset String :=
  db.tablePrivs user table

/-- `get_database_privileges(cursor, user, db)` (lines 583-600): the decoded
ACL set is normalized for database scope before being returned. -/
def get_database_privileges (db : Db) (user dbname : String) : Finset String :=
  normalize_privileges (db.databasePrivs user dbname) PrivType.database

/-- `has_table_privileges(cursor, user, table, privs)` (lines 537-551):
returns (held-and-requested, held-only, requested-only). -/
def has_table_privileges (db : Db) (user table : String) (privs : Finset String) :
    Finset String × Finset String × Finset String :=
  let cur_privs := get_table_privileges db user table
  (cur_privs ∩ privs, cur_privs \ privs, privs \ cur_privs)

/-- `has_database_privileges(cursor, user, db, privs)` (lines 603-617):
the same three set differences, over the database-scope current set. -/
def has_database_privileges (db : Db) (user dbname : String) (privs : Finset String) :
    Finset String × Finset String × Finset String :=
  let cur_privs := get_database_privileges db user dbname
  (cur_privs ∩ privs, cur_privs \ privs, privs \ cur_privs)

/-- Modelled from the spec (section 4.2): the pure Privilege Differ
`diff(held, desired) -> (intersection, heldOnly, desiredOnly)`, used to
compare against the two code-side diff functions. -/
def priv_diff (held desired : Finset String) :
    Finset String × Finset String × Finset String :=
  (held ∩ desired, held \ desired, desired \ held)

/-- A planned GRANT or REVOKE statement, carrying the privilege list that the
source interpolates into the SQL text (`', '.join(privs)`). -/
inductive PStmt
  | grantTable (user table : String) (privs : Finset String)
  | revokeTable (user table : String) (privs : Finset String)
  | grantDatabase (user dbname : String) (privs : Finset String)
  | revokeDatabase (user dbname : String) (privs : Finset String)
deriving DecidableEq

/-- The parsed privilege request: `o_privs` as built by `parse_privs`
(lines 748-772), a dictionary with the `database` entries first and the
`table` entries second, each an insertion-ordered map from object name to
privilege set. -/
structure PrivRequest where
  database : List (String × Finset String)
  table : List (String × Finset String)
deriving DecidableEq

/-- Inner loop of `grant_privileges` (lines 681-688) over the `table`
entries: plan a GRANT iff `differences[2]` (requested-but-missing) is
non-empty; the statement carries the full requested set `privileges`. -/
def grantLoopTable (db : Db) (user : String) :
    List (String × Finset String) → List PStmt
  | [] => []
  | (name, privileges) :: rest =>
      let differences := has_table_privileges db user name privileges
      if differences.2.2 ≠ ∅ then
        PStmt.grantTable user name privileges :: grantLoopTable db user rest
      else grantLoopTable db user rest

/-- Inner loop of `grant_privileges` over the `database` entries. -/
def grantLoopDatabase (db : Db) (user : String) :
    List (String × Finset String) → List PStmt
  | [] => []
  | (name, privileges) :: rest =>
      let differences := has_database_privileges db user name privileges
      if differences.2.2 ≠ ∅ then
        PStmt.grantDatabase user name privileges :: grantLoopDatabase db user rest
      else grantLoopDatabase db user rest

/-- Inner loop of `revoke_privileges` (lines 660-667) over the `table`
entries: plan a REVOKE iff `differences[0]` (the intersection of held and
to-be-removed) is non-empty; the statement carries the full removal set. -/
def revokeLoopTable (db : Db) (user : String) :
    List (String × Finset String) → List PStmt
  | [] => []
  | (name, privileges) :: rest =>
      let differences := has_table_privileges db user name privileges
      if differences.1 ≠ ∅ then
        PStmt.revokeTable user name privileges :: revokeLoopTable db user rest
      else revokeLoopTable db user rest

/-- Inner loop of `revoke_privileges` over the `database` entries. -/
def revokeLoopDatabase (db : Db) (user : String) :
    List (String × Finset String) → List PStmt
  | [] => []
  | (name, privileges) :: rest =>
      let differences := has_database_privileges db user name privileges
      if differences.1 ≠ ∅ then
        PStmt.revokeDatabase user name privileges :: revokeLoopDatabase db user rest
      else revokeLoopDatabase db user rest

/-- `grant_privileges(cursor, user, privs)` (lines 671-689): returns the list
of planned GRANT statements (the `database` dictionary is iterated first, as
in `o_privs`) together with the `changed` flag, which the source sets to True
exactly when some grant statement was executed. -/
def grant_privileges (db : Db) (user : String) (privs : Option PrivRequest) :
    List PStmt × Bool :=
  match privs with
  | none => ([], false)
  | some p =>
      let stmts := grantLoopDatabase db user p.database ++ grantLoopTable db user p.table
      (stmts, !stmts.isEmpty)

/-- `revoke_privileges(cursor, user, privs)` (lines 650-668). -/
def revoke_privileges (db : Db) (user : String) (privs : Option PrivRequest) :
    List PStmt × Bool :=
  match privs with
  | none => ([], false)
  | some p =>
      let stmts := revokeLoopDatabase db user p.database ++ revokeLoopTable db user p.table
      (stmts, !stmts.isEmpty)

/-- An attribute row of `pg_authid` / `pg_roles` as consumed through
`dict_wrap` by `user_alter`: the password hash column (NULL modelled as
`none`), the seven boolean flag columns, the expiry and the connection
limit.  The spec (section 9) calls this record `AttributeSnapshot`. -/
structure RoleAttrs where
  rolpassword : Option String
  rolsuper : Bool
  rolcreaterole : Bool
  rolcreatedb : Bool
  rolinherit : Bool
  rolcanlogin : Bool
  rolreplication : Bool
  rolbypassrls : Bool
  rolvaliduntil : Option String
  rolconnlimit : Int
deriving DecidableEq

/-- Column lookup on an attribute row, keyed by an `pg_authid` column name:
the dictionary access `current_role_attrs[...]` for the flag columns.  The
source would raise a KeyError for any other key; keys are restricted to the
`PRIV_TO_AUTHID_COLUMN` values by `parse_role_attrs` validation upstream. -/
def RoleAttrs.col (a : RoleAttrs) : String → Bool
  | "rolsuper" => a.rolsuper
  | "rolcreaterole" => a.rolcreaterole
  | "rolcreatedb" => a.rolcreatedb
  | "rolinherit" => a.rolinherit
  | "rolcanlogin" => a.rolcanlogin
  | "rolreplication" => a.rolreplication
  | "rolbypassrls" => a.rolbypassrls
  | _ => false

/-- `PRIV_TO_AUTHID_COLUMN` (lines 270-272): flag keyword to catalog column.
Unknown keywords (a KeyError in the source, unreachable after flag
validation) are mapped to the empty string. -/
def PRIV_TO_AUTHID_COLUMN : String → String
  | "SUPERUSER" => "rolsuper"
  | "CREATEROLE" => "rolcreaterole"
  | "CREATEDB" => "rolcreatedb"
  | "INHERIT" => "rolinherit"
  | "LOGIN" => "rolcanlogin"
  | "REPLICATION" => "rolreplication"
  | "BYPASSRLS" => "rolbypassrls"
  | _ => ""

/-- Python `str.startswith(prefix)`, in kernel-computable form over the
character list. -/
def py_startswith (s pre : String) : Bool :=
  s.data.take pre.data.length == pre.data

/-- Python `str[n:]` / string drop, over the character list. -/
def py_drop (s : String) (n : Nat) : String :=
  ⟨s.data.drop n⟩

/-- Python `str.strip()`: remove leading and trailing whitespace. -/
def py_strip (s : String) : String :=
  ⟨((s.data.dropWhile Char.isWhitespace).reverse.dropWhile Char.isWhitespace).reverse⟩

def splitOnSpaceAux : List Char → List Char → List String
  | [], acc => [⟨acc.reverse⟩]
  | c :: cs, acc =>
    if c = ' ' then ⟨acc.reverse⟩ :: splitOnSpaceAux cs []
    else splitOnSpaceAux cs (c :: acc)

/-- Python `str.split(' ')` with the explicit single-space separator. -/
def py_split_space (s : String) : List String :=
  splitOnSpaceAux s.data []

/-- `UNENCRYPTED_VALUE` (line 285). -/
def UNENCRYPTED_VALUE : String := ""

/-- `user_should_we_change_password(current_role_attrs, user, password,
encrypted)` (lines 336-367).  `md5hex` abstracts `hashlib.md5(...).
hexdigest()`; the argument concatenation `to_bytes(password) +
to_bytes(user)` becomes string append. -/
def user_should_we_change_password (md5hex : String → String)
    (current_role_attrs : Option RoleAttrs) (user : String)
    (password : Option String) (encrypted : String) : Bool :=
  match current_role_attrs with
  | none => true
  | some attrs =>
    match password with
    | none => false
    | some pw =>
      if pw = "" then
        attrs.rolpassword.isSome
      else if (py_startswith pw "md5" && pw.length = 32 + 3) || encrypted = UNENCRYPTED_VALUE then
        decide (some pw ≠ attrs.rolpassword)
      else if encrypted = "ENCRYPTED" then
        decide (some ("md5" ++ md5hex (pw ++ user)) ≠ attrs.rolpassword)
      else false

/-- One `role_attr_flags_dict[key] = value` assignment: overwrite an existing
key in place, else append, matching Python dictionary insertion order. -/
def dictInsert (d : List (String × Bool)) (k : String) (v : Bool) :
    List (String × Bool) :=
  if d.any (fun e => e.1 = k) then
    d.map (fun e => if e.1 = k then (k, v) else e)
  else d ++ [(k, v)]

/-- The `role_attr_flags_dict` construction of `user_alter` (lines 413-418
and 480-485): split the validated flag string on spaces; a `NO` prefix maps
the remaining keyword to False, otherwise the keyword maps to True. -/
def buildFlagsDict (role_attr_flags : String) : List (String × Bool) :=
  (py_split_space role_attr_flags).foldl
    (fun d r =>
      if py_startswith r "NO" then dictInsert d (py_drop r 2) false
      else dictInsert d r true)
    []

/-- The `role_attr_flags_changing` computation of `user_alter` (lines
411-422 and 477-489): some requested flag value differs from the stored
column value.  Guarded by `if role_attr_flags:` as in the source. -/
def role_attr_flags_changing (current : RoleAttrs) (role_attr_flags : String) : Bool :=
  if role_attr_flags ≠ "" then
    (buildFlagsDict role_attr_flags).any
      (fun kv => current.col (PRIV_TO_AUTHID_COLUMN kv.1) != kv.2)
  else false

/-- Which query a `cursor.execute` call of `user_alter` issued. -/
inductive ExecTag
  | selectAuthid
  | selectRoles
  | castExpires
  | alterUser
  | selectRolesAfter
deriving DecidableEq

/-- Driver outcome of executing the built ALTER USER statement: success, an
`InternalError` carrying `pgcode` and `pgerror`, or a `NotSupportedError`
carrying `pgerror`. -/
inductive ExecOutcome
  | success
  | internalError (pgcode pgerror : String)
  | notSupported (pgerror : String)
deriving DecidableEq

/-- Connection-side oracle for one `user_alter` call: `authid` is the
`pg_authid` row (`none` when the read raises ProgrammingError, e.g. AWS RDS),
`roles` the `pg_roles` fallback row, `castTz` the result of
`SELECT %s::timestamptz`, `alterOutcome` the driver outcome of the ALTER
statement and `rolesAfter` the re-read row of the second branch. -/
structure AlterEnv where
  md5hex : String → String
  authid : Option RoleAttrs
  roles : Option RoleAttrs
  castTz : String → Option String
  alterOutcome : ExecOutcome
  rolesAfter : RoleAttrs

/-- Result of `user_alter`: normal return of the `changed` boolean, a
`module.fail_json` exit (carrying the message and the value of the local
`changed` variable at that point), or an exception propagated out of the
function.  Each carries the ordered list of queries attempted. -/
inductive AlterResult
  | ok (changed : Bool) (execd : List ExecTag)
  | failed (msg : String) (changed : Bool) (execd : List ExecTag)
  | raised (exc : String) (execd : List ExecTag)
deriving DecidableEq

/-- Tail of the first branch of `user_alter` (lines 411-468), entered with
the resolved attribute row: compute the four change detectors, return False
when none fires, otherwise attempt the ALTER statement and map the driver
outcome (pgcode 25006 aborts fatally with `changed = False`, any other
InternalError is re-raised, NotSupportedError aborts fatally). -/
def alterBranchOneRest (env : AlterEnv) (password : Option String)
    (role_attr_flags : String) (expires : Option String) (conn_limit : Option Int)
    (pwchanging : Bool) (current : RoleAttrs) (execd : List ExecTag) : AlterResult :=
  let flagsChanging := role_attr_flags_changing current role_attr_flags
  let step :=
    match expires with
    | some e => (execd ++ [ExecTag.castExpires], decide (env.castTz e ≠ current.rolvaliduntil))
    | none => (execd, false)
  let execd := step.1
  let expiresChanging := step.2
  let connChanging :=
    match conn_limit with
    | some cl => decide (cl ≠ current.rolconnlimit)
    | none => false
  if !pwchanging && !flagsChanging && !expiresChanging && !connChanging then
    AlterResult.ok false execd
  else
    let _ := password
    let execd := execd ++ [ExecTag.alterUser]
    match env.alterOutcome with
    | ExecOutcome.success => AlterResult.ok true execd
    | ExecOutcome.internalError code perr =>
        if code = "25006" then AlterResult.failed perr false execd
        else AlterResult.raised "InternalError" execd
    | ExecOutcome.notSupported perr => AlterResult.failed perr false execd

/-- First branch of `user_alter` (lines 386-468): read `pg_authid` (falling
back to `pg_roles` when inaccessible; a failing fallback is a fatal
`fail_json`), decide whether the password changes, then continue with
`alterBranchOneRest`. -/
def alterBranchOne (env : AlterEnv) (user : String) (password : Option String)
    (role_attr_flags : String) (encrypted : String) (expires : Option String)
    (conn_limit : Option Int) : AlterResult :=
  let execd := [ExecTag.selectAuthid]
  let pwchanging :=
    user_should_we_change_password env.md5hex env.authid user password encrypted
  match env.authid with
  | some current =>
      alterBranchOneRest env password role_attr_flags expires conn_limit
        pwchanging current execd
  | none =>
      match env.roles with
      | none =>
          AlterResult.failed ("Failed to get role details for current user " ++ user)
            false (execd ++ [ExecTag.selectRoles])
      | some current =>
          alterBranchOneRest env password role_attr_flags expires conn_limit
            pwchanging current (execd ++ [ExecTag.selectRoles])

/-- Second branch of `user_alter` (lines 470-516), taken when
`no_password_changes` is set and flags were requested: read `pg_roles`
(without a try/except, so an inaccessible row propagates), attempt the ALTER
when a flag differs, and on success report `changed` by re-reading the row
and comparing. -/
def alterBranchTwo (env : AlterEnv) (role_attr_flags : String) : AlterResult :=
  match env.roles with
  | none => AlterResult.raised "ProgrammingError" [ExecTag.selectRoles]
  | some current =>
    let execd := [ExecTag.selectRoles]
    if !(role_attr_flags_changing current role_attr_flags) then
      AlterResult.ok false execd
    else
      let execd := execd ++ [ExecTag.alterUser]
      match env.alterOutcome with
      | ExecOutcome.success =>
          AlterResult.ok (decide (current ≠ env.rolesAfter))
            (execd ++ [ExecTag.selectRolesAfter])
      | ExecOutcome.internalError code perr =>
          if code = "25006" then AlterResult.failed perr false execd
          else AlterResult.raised "InternalError" execd
      | ExecOutcome.notSupported _ => AlterResult.raised "NotSupportedError" execd

/-- `user_alter(db_connection, module, user, password, role_attr_flags,
encrypted, expires, no_password_changes, conn_limit)` (lines 370-518).
The PUBLIC guard (lines 377-383) comes first and issues nothing. -/
def user_alter (env : AlterEnv) (user : String) (password : Option String)
    (role_attr_flags : String) (encrypted : String) (expires : Option String)
    (no_password_changes : Bool) (conn_limit : Option Int) : AlterResult :=
  if user = "PUBLIC" then
    if password.isSome then
      AlterResult.failed "cannot change the password for PUBLIC user" false []
    else if role_attr_flags ≠ "" then
      AlterResult.failed "cannot change the role_attr_flags for PUBLIC user" false []
    else
      AlterResult.ok false []
  else if !no_password_changes &&
      (password.isSome || role_attr_flags ≠ "" || expires.isSome || conn_limit.isSome) then
    alterBranchOne env user password role_attr_flags encrypted expires conn_limit
  else if no_password_changes && role_attr_flags ≠ "" then
    alterBranchTwo env role_attr_flags
  else
    AlterResult.ok false []

/-- Transaction decision at the end of `main` in `postgresql_user.py`
(lines 983-987): only when `changed` is set is either a rollback (check
mode) or a commit (normal mode) issued. -/
inductive TxnAction
  | commit
  | rollback
  | noAction
deriving DecidableEq

def user_main_txn (check_mode changed : Bool) : TxnAction :=
  if changed then
    if check_mode then TxnAction.rollback else TxnAction.commit
  else TxnAction.noAction

/-- Catalog oracle for `postgresql_membership.py`: role existence
(`SELECT 1 FROM pg_roles WHERE rolname = ...`) and the membership array
returned by the `pg_auth_members` query of `__check_membership` (an empty
list both for a role with no memberships and for a missing role row). -/
structure MDb where
  roleExists : String → Bool
  memberOf : String → List String

/-- A membership statement: `GRANT group TO role` or `REVOKE group FROM
role`. -/
inductive MStmt
  | grantRole (group role : String)
  | revokeRole (group role : String)
deriving DecidableEq

/-- The roles a membership statement mentions. -/
def MStmt.refersTo : MStmt → String → Prop
  | MStmt.grantRole g r, x => x = g ∨ x = r
  | MStmt.revokeRole g r, x => x = g ∨ x = r

/-- `PgMembership.__check_membership(src_role, dst_role)` (lines 200-219):
fetch the membership array of `dst_role`; an empty array is False, otherwise
test whether `src_role` is contained. -/
def check_membership (db : MDb) (src_role dst_role : String) : Bool :=
  let membership := db.memberOf dst_role
  if membership.isEmpty then false
  else membership.contains src_role

/-- The `groups` loop of `PgMembership.__check_roles_exist` (lines 222-228):
a missing group is fatal under `fail_on_role`, otherwise warned and recorded
in `non_existent_roles`.  Returns (warnings, non_existent_roles) in
emission order. -/
def checkGroupsLoop (db : MDb) (fail_on_role : Bool) :
    List String → Except String (List String × List String)
  | [] => Except.ok ([], [])
  | g :: gs =>
    if db.roleExists g then checkGroupsLoop db fail_on_role gs
    else if fail_on_role then Except.error ("Role " ++ g ++ " does not exist")
    else
      match checkGroupsLoop db fail_on_role gs with
      | Except.error e => Except.error e
      | Except.ok (ws, ne) =>
          Except.ok (("Role " ++ g ++ " does not exist, pass") :: ws, g :: ne)

/-- The `target_roles` loop of `__check_roles_exist` (lines 230-244): a
missing target is fatal under `fail_on_role`; otherwise it is warned, and
recorded in `non_existent_roles` unless it also appears in `groups`, in
which case only the member-of-itself warning is emitted (the source wraps
the role names of that warning in single quotes). -/
def checkTargetsLoop (db : MDb) (fail_on_role : Bool) (groups : List String) :
    List String → Except String (List String × List String)
  | [] => Except.ok ([], [])
  | r :: rs =>
    if db.roleExists r then checkTargetsLoop db fail_on_role groups rs
    else if fail_on_role then Except.error ("Role " ++ r ++ " does not exist")
    else
      match checkTargetsLoop db fail_on_role groups rs with
      | Except.error e => Except.error e
      | Except.ok (ws, ne) =>
          if r ∈ groups then
            Except.ok (("Role " ++ r ++ " does not exist, pass")
              :: ("Role role " ++ r ++ " is a member of role " ++ r ++ ", pass") :: ws, ne)
          else
            Except.ok (("Role " ++ r ++ " does not exist, pass") :: ws, r :: ne)

/-- Outcome of `__check_roles_exist` (lines 221-249): the reduced role
lists after filtering out `non_existent_roles`, plus warnings. -/
structure CheckedRoles where
  groups : List String
  target_roles : List String
  warnings : List String
  non_existent_roles : List String
deriving DecidableEq

/-- `PgMembership.__check_roles_exist` (lines 221-249): run both loops, then
rebuild `groups` and `target_roles` excluding `non_existent_roles`. -/
def check_roles_exist (db : MDb) (groups target_roles : List String)
    (fail_on_role : Bool) : Except String CheckedRoles :=
  match checkGroupsLoop db fail_on_role groups with
  | Except.error e => Except.error e
  | Except.ok (w1, ne1) =>
    match checkTargetsLoop db fail_on_role groups target_roles with
    | Except.error e => Except.error e
    | Except.ok (w2, ne2) =>
      let ne := ne1 ++ ne2
      Except.ok
        { groups := groups.filter (fun g => decide (g ∉ ne))
          target_roles := target_roles.filter (fun r => decide (r ∉ ne))
          warnings := w1 ++ w2
          non_existent_roles := ne }

/-- Inner loop of `PgMembership.grant` (lines 168-178) for one group:
skip roles already in the group, otherwise execute `GRANT group TO role`
(statement execution, an external collaborator per spec section 6, succeeds
and returns True) and record the role under `granted[group]`. -/
def grantInner (db : MDb) (group : String) : List String → List MStmt × List String
  | [] => ([], [])
  | role :: rs =>
    if check_membership db group role then grantInner db group rs
    else
      let step := grantInner db group rs
      (MStmt.grantRole group role :: step.1, role :: step.2)

/-- Outer loop of `PgMembership.grant` (lines 164-180): every group gets a
`granted` entry, initialised to the empty list. -/
def grantOuter (db : MDb) (target_roles : List String) :
    List String → List MStmt × List (String × List String)
  | [] => ([], [])
  | g :: gs =>
    let inner := grantInner db g target_roles
    let rest := grantOuter db target_roles gs
    (inner.1 ++ rest.1, (g, inner.2) :: rest.2)

/-- Inner loop of `PgMembership.revoke` (lines 186-196) for one group:
skip roles not currently in the group, otherwise execute
`REVOKE group FROM role`. -/
def revokeInner (db : MDb) (group : String) : List String → List MStmt × List String
  | [] => ([], [])
  | role :: rs =>
    if !(check_membership db group role) then revokeInner db group rs
    else
      let step := revokeInner db group rs
      (MStmt.revokeRole group role :: step.1, role :: step.2)

/-- Outer loop of `PgMembership.revoke` (lines 182-198). -/
def revokeOuter (db : MDb) (target_roles : List String) :
    List String → List MStmt × List (String × List String)
  | [] => ([], [])
  | g :: gs =>
    let inner := revokeInner db g target_roles
    let rest := revokeOuter db target_roles gs
    (inner.1 ++ rest.1, (g, inner.2) :: rest.2)

/-- `state` parameter of `postgresql_membership.py`. -/
inductive MState
  | present
  | absent
deriving DecidableEq

/-- Output of one `postgresql_membership.py` invocation: the module result
dictionary plus the transaction action taken by `main`. -/
structure MembershipResult where
  changed : Bool
  statements : List MStmt
  warnings : List String
  groups : List String
  target_roles : List String
  granted : List (String × List String)
  revoked : List (String × List String)
  txn : TxnAction
deriving DecidableEq

/-- `main` of `postgresql_membership.py` (lines 260-319): strip the two role
lists, construct `PgMembership` (which runs `__check_roles_exist`), run
`grant` or `revoke` according to `state`, then (lines 296-300) roll back in
check mode and commit otherwise.  `changed` is True exactly when some
statement was executed, since `exec_sql(ddl=True)` returns True. -/
def membership_main (db : MDb) (groups target_roles : List String)
    (fail_on_role : Bool) (state : MState) (check_mode : Bool) :
    Except String MembershipResult :=
  let g0 := groups.map py_strip
  let t0 := target_roles.map py_strip
  match check_roles_exist db g0 t0 fail_on_role with
  | Except.error e => Except.error e
  | Except.ok cr =>
    let run :=
      match state with
      | MState.present =>
          let go := grantOuter db cr.target_roles cr.groups
          (go.1, go.2, ([] : List (String × List String)))
      | MState.absent =>
          let ro := revokeOuter db cr.target_roles cr.groups
          (ro.1, ([] : List (String × List String)), ro.2)
    Except.ok
      { changed := !run.1.isEmpty
        statements := run.1
        warnings := cr.warnings
        groups := cr.groups
        target_roles := cr.target_roles
        granted := run.2.1
        revoked := run.2.2
        txn := if check_mode then TxnAction.rollback else TxnAction.commit }

theorem normalize_no_ALL (s : Finset String) (t : PrivType) :
    "ALL" ∉ normalize_privileges s t := by
  simp only [normalize_privileges]
  split_ifs with hA hT hT <;>
    simp_all [Finset.mem_erase, Finset.mem_insert, Finset.mem_union]

theorem normalize_no_TEMP (s : Finset String) (t : PrivType) :
    "TEMP" ∉ normalize_privileges s t := by
  simp only [normalize_privileges]
  split_ifs with hA hT hT <;>
    simp_all [Finset.mem_erase, Finset.mem_insert, Finset.mem_union]

theorem normalize_id_of (s : Finset String) (t : PrivType)
    (hA : "ALL" ∉ s) (hT : "TEMP" ∉ s) : normalize_privileges s t = s := by
  simp only [normalize_privileges]
  rw [if_neg hA, if_neg hT]

/-- Claim C10: privilege normalization is idempotent, since the output of
`normalize_privileges` never contains the `ALL` or `TEMP` tokens that
trigger rewriting. -/
theorem spec_c10 (s : Finset String) (t : PrivType) :
    normalize_privileges (normalize_privileges s t) t = normalize_privileges s t :=
  normalize_id_of _ t (normalize_no_ALL s t) (normalize_no_TEMP s t)

/-- Claim C8: normalizing a validated privilege set containing `ALL` yields
exactly the full enumeration for the object type (the seven table
privileges, respectively CREATE/CONNECT/TEMPORARY for databases); `TEMP` is
always replaced by `TEMPORARY`; neither `ALL` nor `TEMP` ever appears in a
normalized output. -/
theorem spec_c8 :
    (∀ s : Finset String, s ⊆ VALID_PRIVS PrivType.table → "ALL" ∈ s →
        normalize_privileges s PrivType.table =
          {"SELECT", "INSERT", "UPDATE", "DELETE", "TRUNCATE", "REFERENCES", "TRIGGER"})
    ∧ (∀ s : Finset String, s ⊆ VALID_PRIVS PrivType.database → "ALL" ∈ s →
        normalize_privileges s PrivType.database = {"CREATE", "CONNECT", "TEMPORARY"})
    ∧ (∀ (s : Finset String) (t : PrivType), "TEMP" ∈ s →
        "TEMPORARY" ∈ normalize_privileges s t)
    ∧ (∀ (s : Finset String) (t : PrivType),
        "ALL" ∉ normalize_privileges s t ∧ "TEMP" ∉ normalize_privileges s t) := by
  refine ⟨?_, ?_, ?_, fun s t => ⟨normalize_no_ALL s t, normalize_no_TEMP s t⟩⟩
  · intro s hsub hall
    have hu : s ∪ VALID_PRIVS PrivType.table = VALID_PRIVS PrivType.table :=
      Finset.union_eq_right.mpr hsub
    simp only [normalize_privileges, if_pos hall, hu]
    decide
  · intro s hsub hall
    have hu : s ∪ VALID_PRIVS PrivType.database = VALID_PRIVS PrivType.database :=
      Finset.union_eq_right.mpr hsub
    simp only [normalize_privileges, if_pos hall, hu]
    decide
  · intro s t hT
    simp only [normalize_privileges]
    by_cases hA : "ALL" ∈ s
    · have hT1 : "TEMP" ∈ (s ∪ VALID_PRIVS t).erase "ALL" :=
        Finset.mem_erase.mpr ⟨by decide, Finset.mem_union_left _ hT⟩
      rw [if_pos hA, if_pos hT1]
      exact Finset.mem_erase.mpr ⟨by decide, Finset.mem_insert_self _ _⟩
    · rw [if_neg hA, if_pos hT]
      exact Finset.mem_erase.mpr ⟨by decide, Finset.mem_insert_self _ _⟩

/-- Witness for C8 at concrete inputs. -/
theorem spec_c8_witness :
    normalize_privileges {"ALL"} PrivType.table =
        {"SELECT", "INSERT", "UPDATE", "DELETE", "TRUNCATE", "REFERENCES", "TRIGGER"}
    ∧ normalize_privileges {"ALL", "TEMP", "CREATE"} PrivType.database =
        {"CREATE", "CONNECT", "TEMPORARY"}
    ∧ "TEMPORARY" ∈ normalize_privileges {"TEMP"} PrivType.database
    ∧ "ALL" ∉ normalize_privileges {"ALL"} PrivType.table
    ∧ "TEMP" ∉ normalize_privileges {"TEMP"} PrivType.database := by
  refine ⟨spec_c8.1 {"ALL"} (by decide) (by decide),
    spec_c8.2.1 {"ALL", "TEMP", "CREATE"} (by decide) (by decide),
    spec_c8.2.2.1 {"TEMP"} PrivType.database (by decide),
    (spec_c8.2.2.2 {"ALL"} PrivType.table).1,
    (spec_c8.2.2.2 {"TEMP"} PrivType.database).2⟩

/-- Claim C9: the privilege diff is the pure Privilege Differ of the spec,
identically for table and database scope, and its three outputs form a
partition: pairwise disjoint, with `intersection ∪ heldOnly = held` and
`intersection ∪ desiredOnly = desired`. -/
theorem spec_c9 (db : Db) (user table dbname : String)
    (privs held desired : Finset String) :
    has_table_privileges db user table privs =
        priv_diff (get_table_privileges db user table) privs
    ∧ has_database_privileges db user dbname privs =
        priv_diff (get_database_privileges db user dbname) privs
    ∧ Disjoint (priv_diff held desired).1 (priv_diff held desired).2.1
    ∧ Disjoint (priv_diff held desired).1 (priv_diff held desired).2.2
    ∧ Disjoint (priv_diff held desired).2.1 (priv_diff held desired).2.2
    ∧ (priv_diff held desired).1 ∪ (priv_diff held desired).2.1 = held
    ∧ (priv_diff held desired).1 ∪ (priv_diff held desired).2.2 = desired := by
  refine ⟨rfl, rfl, ?_, ?_, ?_, ?_, ?_⟩
  · simp only [priv_diff]
    rw [Finset.disjoint_left]
    intro a ha hb
    exact (Finset.mem_sdiff.mp hb).2 (Finset.mem_inter.mp ha).2
  · simp only [priv_diff]
    rw [Finset.disjoint_left]
    intro a ha hb
    exact (Finset.mem_sdiff.mp hb).2 (Finset.mem_inter.mp ha).1
  · simp only [priv_diff]
    rw [Finset.disjoint_left]
    intro a ha hb
    exact (Finset.mem_sdiff.mp ha).2 (Finset.mem_sdiff.mp hb).1
  · simp only [priv_diff]
    ext a
    simp only [Finset.mem_union, Finset.mem_inter, Finset.mem_sdiff]
    tauto
  · simp only [priv_diff]
    ext a
    simp only [Finset.mem_union, Finset.mem_inter, Finset.mem_sdiff]
    tauto

theorem mem_grantLoopTable (db : Db) (u : String) (name : String) (pr : Finset String)
    (l : List (String × Finset String)) :
    PStmt.grantTable u name pr ∈ grantLoopTable db u l ↔
      ((name, pr) ∈ l ∧ (has_table_privileges db u name pr).2.2 ≠ ∅) := by
  induction l with
  | nil => simp [grantLoopTable]
  | cons hd tl ih =>
    obtain ⟨n0, p0⟩ := hd
    by_cases hc : (has_table_privileges db u n0 p0).2.2 ≠ ∅
    · simp only [grantLoopTable, if_pos hc, List.mem_cons, ih, PStmt.grantTable.injEq,
        Prod.mk.injEq]
      constructor
      · rintro (⟨-, h1, h2⟩ | ⟨h3, h4⟩)
        · subst h1; subst h2; exact ⟨Or.inl ⟨rfl, rfl⟩, hc⟩
        · exact ⟨Or.inr h3, h4⟩
      · rintro ⟨⟨ha, hb⟩ | h2, h4⟩
        · subst ha; subst hb; exact Or.inl ⟨trivial, rfl, rfl⟩
        · exact Or.inr ⟨h2, h4⟩
    · simp only [grantLoopTable, if_neg hc, ih, List.mem_cons, Prod.mk.injEq]
      constructor
      · rintro ⟨h3, h4⟩
        exact ⟨Or.inr h3, h4⟩
      · rintro ⟨⟨ha, hb⟩ | h2, h4⟩
        · subst ha; subst hb; exact absurd h4 hc
        · exact ⟨h2, h4⟩

theorem mem_grantLoopDatabase (db : Db) (u : String) (name : String) (pr : Finset String)
    (l : List (String × Finset String)) :
    PStmt.grantDatabase u name pr ∈ grantLoopDatabase db u l ↔
      ((name, pr) ∈ l ∧ (has_database_privileges db u name pr).2.2 ≠ ∅) := by
  induction l with
  | nil => simp [grantLoopDatabase]
  | cons hd tl ih =>
    obtain ⟨n0, p0⟩ := hd
    by_cases hc : (has_database_privileges db u n0 p0).2.2 ≠ ∅
    · simp only [grantLoopDatabase, if_pos hc, List.mem_cons, ih, PStmt.grantDatabase.injEq,
        Prod.mk.injEq]
      constructor
      · rintro (⟨-, h1, h2⟩ | ⟨h3, h4⟩)
        · subst h1; subst h2; exact ⟨Or.inl ⟨rfl, rfl⟩, hc⟩
        · exact ⟨Or.inr h3, h4⟩
      · rintro ⟨⟨ha, hb⟩ | h2, h4⟩
        · subst ha; subst hb; exact Or.inl ⟨trivial, rfl, rfl⟩
        · exact Or.inr ⟨h2, h4⟩
    · simp only [grantLoopDatabase, if_neg hc, ih, List.mem_cons, Prod.mk.injEq]
      constructor
      · rintro ⟨h3, h4⟩
        exact ⟨Or.inr h3, h4⟩
      · rintro ⟨⟨ha, hb⟩ | h2, h4⟩
        · subst ha; subst hb; exact absurd h4 hc
        · exact ⟨h2, h4⟩

theorem mem_revokeLoopTable (db : Db) (u : String) (name : String) (pr : Finset String)
    (l : List (String × Finset String)) :
    PStmt.revokeTable u name pr ∈ revokeLoopTable db u l ↔
      ((name, pr) ∈ l ∧ (has_table_privileges db u name pr).1 ≠ ∅) := by
  induction l with
  | nil => simp [revokeLoopTable]
  | cons hd tl ih =>
    obtain ⟨n0, p0⟩ := hd
    by_cases hc : (has_table_privileges db u n0 p0).1 ≠ ∅
    · simp only [revokeLoopTable, if_pos hc, List.mem_cons, ih, PStmt.revokeTable.injEq,
        Prod.mk.injEq]
      constructor
      · rintro (⟨-, h1, h2⟩ | ⟨h3, h4⟩)
        · subst h1; subst h2; exact ⟨Or.inl ⟨rfl, rfl⟩, hc⟩
        · exact ⟨Or.inr h3, h4⟩
      · rintro ⟨⟨ha, hb⟩ | h2, h4⟩
        · subst ha; subst hb; exact Or.inl ⟨trivial, rfl, rfl⟩
        · exact Or.inr ⟨h2, h4⟩
    · simp only [revokeLoopTable, if_neg hc, ih, List.mem_cons, Prod.mk.injEq]
      constructor
      · rintro ⟨h3, h4⟩
        exact ⟨Or.inr h3, h4⟩
      · rintro ⟨⟨ha, hb⟩ | h2, h4⟩
        · subst ha; subst hb; exact absurd h4 hc
        · exact ⟨h2, h4⟩

theorem mem_revokeLoopDatabase (db : Db) (u : String) (name : String) (pr : Finset String)
    (l : List (String × Finset String)) :
    PStmt.revokeDatabase u name pr ∈ revokeLoopDatabase db u l ↔
      ((name, pr) ∈ l ∧ (has_database_privileges db u name pr).1 ≠ ∅) := by
  induction l with
  | nil => simp [revokeLoopDatabase]
  | cons hd tl ih =>
    obtain ⟨n0, p0⟩ := hd
    by_cases hc : (has_database_privileges db u n0 p0).1 ≠ ∅
    · simp only [revokeLoopDatabase, if_pos hc, List.mem_cons, ih,
        PStmt.revokeDatabase.injEq, Prod.mk.injEq]
      constructor
      · rintro (⟨-, h1, h2⟩ | ⟨h3, h4⟩)
        · subst h1; subst h2; exact ⟨Or.inl ⟨rfl, rfl⟩, hc⟩
        · exact ⟨Or.inr h3, h4⟩
      · rintro ⟨⟨ha, hb⟩ | h2, h4⟩
        · subst ha; subst hb; exact Or.inl ⟨trivial, rfl, rfl⟩
        · exact Or.inr ⟨h2, h4⟩
    · simp only [revokeLoopDatabase, if_neg hc, ih, List.mem_cons, Prod.mk.injEq]
      constructor
      · rintro ⟨h3, h4⟩
        exact ⟨Or.inr h3, h4⟩
      · rintro ⟨⟨ha, hb⟩ | h2, h4⟩
        · subst ha; subst hb; exact absurd h4 hc
        · exact ⟨h2, h4⟩

theorem grantLoopTable_shape (db : Db) (u : String) (l : List (String × Finset String)) :
    ∀ s ∈ grantLoopTable db u l, ∃ n p, s = PStmt.grantTable u n p := by
  induction l with
  | nil => simp [grantLoopTable]
  | cons hd tl ih =>
    obtain ⟨n0, p0⟩ := hd
    intro s hs
    by_cases hc : (has_table_privileges db u n0 p0).2.2 ≠ ∅
    · rw [grantLoopTable, if_pos hc] at hs
      rcases List.mem_cons.mp hs with h | h
      · exact ⟨n0, p0, h⟩
      · exact ih s h
    · rw [grantLoopTable, if_neg hc] at hs
      exact ih s hs

theorem grantLoopDatabase_shape (db : Db) (u : String) (l : List (String × Finset String)) :
    ∀ s ∈ grantLoopDatabase db u l, ∃ n p, s = PStmt.grantDatabase u n p := by
  induction l with
  | nil => simp [grantLoopDatabase]
  | cons hd tl ih =>
    obtain ⟨n0, p0⟩ := hd
    intro s hs
    by_cases hc : (has_database_privileges db u n0 p0).2.2 ≠ ∅
    · rw [grantLoopDatabase, if_pos hc] at hs
      rcases List.mem_cons.mp hs with h | h
      · exact ⟨n0, p0, h⟩
      · exact ih s h
    · rw [grantLoopDatabase, if_neg hc] at hs
      exact ih s hs

theorem revokeLoopTable_shape (db : Db) (u : String) (l : List (String × Finset String)) :
    ∀ s ∈ revokeLoopTable db u l, ∃ n p, s = PStmt.revokeTable u n p := by
  induction l with
  | nil => simp [revokeLoopTable]
  | cons hd tl ih =>
    obtain ⟨n0, p0⟩ := hd
    intro s hs
    by_cases hc : (has_table_privileges db u n0 p0).1 ≠ ∅
    · rw [revokeLoopTable, if_pos hc] at hs
      rcases List.mem_cons.mp hs with h | h
      · exact ⟨n0, p0, h⟩
      · exact ih s h
    · rw [revokeLoopTable, if_neg hc] at hs
      exact ih s hs

theorem revokeLoopDatabase_shape (db : Db) (u : String) (l : List (String × Finset String)) :
    ∀ s ∈ revokeLoopDatabase db u l, ∃ n p, s = PStmt.revokeDatabase u n p := by
  induction l with
  | nil => simp [revokeLoopDatabase]
  | cons hd tl ih =>
    obtain ⟨n0, p0⟩ := hd
    intro s hs
    by_cases hc : (has_database_privileges db u n0 p0).1 ≠ ∅
    · rw [revokeLoopDatabase, if_pos hc] at hs
      rcases List.mem_cons.mp hs with h | h
      · exact ⟨n0, p0, h⟩
      · exact ih s h
    · rw [revokeLoopDatabase, if_neg hc] at hs
      exact ih s hs

/-- Concrete catalog state for the C1 scenario: role bob holds SELECT on
table orders, nothing else. -/
def dbBob : Db :=
  { tablePrivs := fun u t => if u = "bob" && t = "orders" then {"SELECT"} else ∅
    databasePrivs := fun _ _ => ∅ }

/-- Claim C1 counterexample: for bob holding SELECT and the request
SELECT,INSERT on orders the plan contains exactly one GRANT, but its
privilege list is the full requested set SELECT,INSERT, not the desiredOnly
set INSERT as the claim states. -/
theorem spec_c1_counterexample :
    (grant_privileges dbBob "bob"
        (some { database := [], table := [("orders", {"SELECT", "INSERT"})] })).1 =
      [PStmt.grantTable "bob" "orders" {"SELECT", "INSERT"}]
    ∧ ({"SELECT", "INSERT"} : Finset String) ≠ {"INSERT"} := by
  constructor
  · decide
  · decide

/-- Claim C1 as amended: when the role holds a non-empty proper subset of
the requested table privileges, exactly one GRANT statement is planned for
that (role, table) pair, and its privilege list is the full requested set
(already-held privileges are re-granted; the `changed` flag is True). -/
theorem spec_c1_amended (db : Db) (user table : String) (req : Finset String)
    (_hheld : (get_table_privileges db user table).Nonempty)
    (hsub : get_table_privileges db user table ⊂ req) :
    grant_privileges db user (some { database := [], table := [(table, req)] }) =
      ([PStmt.grantTable user table req], true) := by
  have hd : (has_table_privileges db user table req).2.2 ≠ ∅ := by
    rw [← Finset.nonempty_iff_ne_empty]
    exact Finset.sdiff_nonempty.mpr (Finset.ssubset_def.mp hsub).2
  simp [grant_privileges, grantLoopTable, grantLoopDatabase, hd]

/-- Witness for C1 at the concrete scenario of the claim. -/
theorem spec_c1_witness :
    grant_privileges dbBob "bob"
        (some { database := [], table := [("orders", {"SELECT", "INSERT"})] }) =
      ([PStmt.grantTable "bob" "orders" {"SELECT", "INSERT"}], true) :=
  spec_c1_amended dbBob "bob" "orders" {"SELECT", "INSERT"} (by decide) (by decide)

/-- Concrete catalog state for the C2 counterexample: role carol holds
exactly SELECT on table t1. -/
def dbCarol : Db :=
  { tablePrivs := fun u t => if u = "carol" && t = "t1" then {"SELECT"} else ∅
    databasePrivs := fun _ _ => ∅ }

/-- Claim C2 counterexample: removing SELECT from carol, who holds exactly
SELECT, plans a REVOKE statement although the heldOnly component of the diff
under the removal set (held minus removal set) is empty — the code plans the
REVOKE from the intersection component, not from heldOnly. -/
theorem spec_c2_counterexample :
    (revoke_privileges dbCarol "carol"
        (some { database := [], table := [("t1", {"SELECT"})] })).1 =
      [PStmt.revokeTable "carol" "t1" {"SELECT"}]
    ∧ get_table_privileges dbCarol "carol" "t1" \ {"SELECT"} = ∅ := by
  constructor
  · decide
  · decide

/-- Claim C2 as amended: for every (role, object) pair of the request, a
GRANT is planned iff the desiredOnly component (`differences[2]`) is
non-empty, and a REVOKE is planned iff the intersection component
(`differences[0]`, the removal-set privileges currently held) is
non-empty. -/
theorem spec_c2_amended (db : Db) (user : String) (p : PrivRequest)
    (name : String) (pr : Finset String) :
    (PStmt.grantTable user name pr ∈ (grant_privileges db user (some p)).1 ↔
      ((name, pr) ∈ p.table ∧ (has_table_privileges db user name pr).2.2 ≠ ∅))
    ∧ (PStmt.grantDatabase user name pr ∈ (grant_privileges db user (some p)).1 ↔
      ((name, pr) ∈ p.database ∧ (has_database_privileges db user name pr).2.2 ≠ ∅))
    ∧ (PStmt.revokeTable user name pr ∈ (revoke_privileges db user (some p)).1 ↔
      ((name, pr) ∈ p.table ∧ (has_table_privileges db user name pr).1 ≠ ∅))
    ∧ (PStmt.revokeDatabase user name pr ∈ (revoke_privileges db user (some p)).1 ↔
      ((name, pr) ∈ p.database ∧ (has_database_privileges db user name pr).1 ≠ ∅)) := by
  refine ⟨?_, ?_, ?_, ?_⟩
  · rw [grant_privileges]
    simp only [List.mem_append]
    rw [← mem_grantLoopTable db user name pr p.table]
    constructor
    · rintro (h | h)
      · obtain ⟨n, q, hs⟩ := grantLoopDatabase_shape db user p.database _ h
        cases hs
      · exact h
    · exact Or.inr
  · rw [grant_privileges]
    simp only [List.mem_append]
    rw [← mem_grantLoopDatabase db user name pr p.database]
    constructor
    · rintro (h | h)
      · exact h
      · obtain ⟨n, q, hs⟩ := grantLoopTable_shape db user p.table _ h
        cases hs
    · exact Or.inl
  · rw [revoke_privileges]
    simp only [List.mem_append]
    rw [← mem_revokeLoopTable db user name pr p.table]
    constructor
    · rintro (h | h)
      · obtain ⟨n, q, hs⟩ := revokeLoopDatabase_shape db user p.database _ h
        cases hs
      · exact h
    · exact Or.inr
  · rw [revoke_privileges]
    simp only [List.mem_append]
    rw [← mem_revokeLoopDatabase db user name pr p.database]
    constructor
    · rintro (h | h)
      · exact h
      · obtain ⟨n, q, hs⟩ := revokeLoopTable_shape db user p.table _ h
        cases hs
    · exact Or.inl

/-- Witness for C2 at concrete inputs: carol gets a REVOKE for t1 because
the intersection is non-empty, and no GRANT because desiredOnly is empty. -/
theorem spec_c2_witness :
    PStmt.revokeTable "carol" "t1" ({"SELECT"} : Finset String) ∈
      (revoke_privileges dbCarol "carol"
        (some { database := [], table := [("t1", {"SELECT"})] })).1
    ∧ PStmt.grantTable "carol" "t1" ({"SELECT"} : Finset String) ∉
      (grant_privileges dbCarol "carol"
        (some { database := [], table := [("t1", {"SELECT"})] })).1 := by
  constructor
  · exact (spec_c2_amended dbCarol "carol"
      { database := [], table := [("t1", {"SELECT"})] } "t1" {"SELECT"}).2.2.1.mpr
      ⟨by decide, by decide⟩
  · intro hmem
    have h := (spec_c2_amended dbCarol "carol"
      { database := [], table := [("t1", {"SELECT"})] } "t1" {"SELECT"}).1.mp hmem
    exact h.2 (by decide)

/-- Claim C4: password-change detection.  An absent snapshot always reports
a change; for a non-None password, the empty string reports a change iff a
password is stored; an md5-formatted 35-character password is compared
verbatim; any other password under encrypted storage is compared through the
salted hash `md5 ++ md5(password ++ user)`; in the compare cases a change is
reported iff the values differ. -/
theorem spec_c4 (md5hex : String → String) (a : RoleAttrs)
    (user : String) (password : Option String) (pw encrypted : String) :
    user_should_we_change_password md5hex none user password encrypted = true
    ∧ (user_should_we_change_password md5hex (some a) user (some "") encrypted =
        a.rolpassword.isSome)
    ∧ (py_startswith pw "md5" = true → pw.length = 35 →
        user_should_we_change_password md5hex (some a) user (some pw) encrypted =
          decide (some pw ≠ a.rolpassword))
    ∧ (pw ≠ "" → ¬(py_startswith pw "md5" = true ∧ pw.length = 35) →
        user_should_we_change_password md5hex (some a) user (some pw) "ENCRYPTED" =
          decide (some ("md5" ++ md5hex (pw ++ user)) ≠ a.rolpassword)) := by
  refine ⟨rfl, ?_, ?_, ?_⟩
  · rw [user_should_we_change_password]
    simp
  · intro h1 h2
    rw [user_should_we_change_password]
    have hne : pw ≠ "" := by
      intro hc
      rw [hc] at h2
      simp at h2
    rw [if_neg hne]
    rw [if_pos (by simp [h1, h2])]
  · intro h1 h2
    rw [user_should_we_change_password]
    rw [if_neg h1]
    have hc : ¬((py_startswith pw "md5" && pw.length = 32 + 3) ||
        "ENCRYPTED" = UNENCRYPTED_VALUE) := by
      simp [UNENCRYPTED_VALUE]
      intro hs
      intro hl
      exact h2 ⟨hs, hl⟩
    rw [if_neg hc, if_pos rfl]

/-- A concrete attribute row for the C4 witness. -/
def attrsC4 : RoleAttrs :=
  { rolpassword := some "oldhash"
    rolsuper := false
    rolcreaterole := false
    rolcreatedb := false
    rolinherit := true
    rolcanlogin := true
    rolreplication := false
    rolbypassrls := false
    rolvaliduntil := none
    rolconnlimit := -1 }

/-- Witness for C4 at concrete inputs (identity in place of md5). -/
theorem spec_c4_witness :
    user_should_we_change_password (fun s => s) none "alice" (some "x") "ENCRYPTED" = true
    ∧ user_should_we_change_password (fun s => s) (some attrsC4) "alice" (some "")
        "ENCRYPTED" = attrsC4.rolpassword.isSome
    ∧ user_should_we_change_password (fun s => s) (some attrsC4) "alice"
        (some "md5aaaaaaaaaaaaaaaaaaaaaaaaaaaaaaaa") "ENCRYPTED" =
        decide (some "md5aaaaaaaaaaaaaaaaaaaaaaaaaaaaaaaa" ≠ attrsC4.rolpassword)
    ∧ user_should_we_change_password (fun s => s) (some attrsC4) "alice" (some "pw")
        "ENCRYPTED" =
        decide (some ("md5" ++ ("pw" ++ "alice")) ≠ attrsC4.rolpassword) :=
  ⟨(spec_c4 (fun s => s) attrsC4 "alice" (some "x") "pw" "ENCRYPTED").1,
   (spec_c4 (fun s => s) attrsC4 "alice" (some "x") "pw" "ENCRYPTED").2.1,
   (spec_c4 (fun s => s) attrsC4 "alice" none "md5aaaaaaaaaaaaaaaaaaaaaaaaaaaaaaaa"
     "ENCRYPTED").2.2.1 (by decide) (by decide),
   (spec_c4 (fun s => s) attrsC4 "alice" none "pw" "ENCRYPTED").2.2.2 (by decide)
     (by decide)⟩

/-- Claim C6: any request on role PUBLIC that sets a password or a non-empty
attribute-flag string fails with the corresponding error message and
executes zero SQL statements; a PUBLIC request with neither returns
`changed = False` without executing anything. -/
theorem spec_c6 (env : AlterEnv) (password : Option String)
    (role_attr_flags encrypted : String) (expires : Option String)
    (no_password_changes : Bool) (conn_limit : Option Int) :
    (password.isSome ∨ role_attr_flags ≠ "" →
      ∃ msg, user_alter env "PUBLIC" password role_attr_flags encrypted expires
          no_password_changes conn_limit = AlterResult.failed msg false [])
    ∧ (password = none → role_attr_flags = "" →
      user_alter env "PUBLIC" password role_attr_flags encrypted expires
          no_password_changes conn_limit = AlterResult.ok false []) := by
  constructor
  · intro h
    rw [user_alter, if_pos rfl]
    rcases h with h | h
    · rw [if_pos (by simp_all)]
      exact ⟨_, rfl⟩
    · by_cases hp : password.isSome
      · rw [if_pos hp]
        exact ⟨_, rfl⟩
      · rw [if_neg hp, if_pos h]
        exact ⟨_, rfl⟩
  · intro hp hf
    subst hp
    rw [user_alter, if_pos rfl]
    simp [hf]

/-- Witness for C6 at concrete inputs. -/
theorem spec_c6_witness :
    (∃ msg, user_alter
        { md5hex := fun s => s, authid := none, roles := none,
          castTz := fun _ => none, alterOutcome := ExecOutcome.success,
          rolesAfter := attrsC4 }
        "PUBLIC" (some "pw") "" "ENCRYPTED" none false none =
        AlterResult.failed msg false [])
    ∧ user_alter
        { md5hex := fun s => s, authid := none, roles := none,
          castTz := fun _ => none, alterOutcome := ExecOutcome.success,
          rolesAfter := attrsC4 }
        "PUBLIC" none "" "ENCRYPTED" none false none = AlterResult.ok false [] := by
  constructor
  · exact (spec_c6 _ (some "pw") "" "ENCRYPTED" none false none).1 (Or.inl rfl)
  · exact (spec_c6 _ none "" "ENCRYPTED" none false none).2 rfl rfl

/-- Claim C7: when the ALTER statement fails with the read-only-transaction
condition (pgcode 25006), `user_alter` fails immediately and fatally with
`changed = False`; the ALTER is attempted exactly once (never retried) and
is the last statement attempted.  Stated for both branches: the
password-management branch (lines 454-464) and the
`no_password_changes` branch (lines 499-507). -/
theorem spec_c7 (env : AlterEnv) (user : String) (password : Option String)
    (role_attr_flags encrypted : String) (expires : Option String)
    (conn_limit : Option Int) (perr : String) (a b : RoleAttrs) :
    (user ≠ "PUBLIC" → env.authid = some a → password.isSome = true →
      user_should_we_change_password env.md5hex (some a) user password encrypted = true →
      env.alterOutcome = ExecOutcome.internalError "25006" perr →
      ∃ l, user_alter env user password role_attr_flags encrypted expires false
          conn_limit = AlterResult.failed perr false (l ++ [ExecTag.alterUser])
        ∧ ExecTag.alterUser ∉ l)
    ∧ (user ≠ "PUBLIC" → env.roles = some b → role_attr_flags ≠ "" →
      role_attr_flags_changing b role_attr_flags = true →
      env.alterOutcome = ExecOutcome.internalError "25006" perr →
      ∃ l, user_alter env user password role_attr_flags encrypted expires true
          conn_limit = AlterResult.failed perr false (l ++ [ExecTag.alterUser])
        ∧ ExecTag.alterUser ∉ l) := by
  constructor
  · intro huser ha hp hpw hout
    cases expires with
    | none =>
        refine ⟨[ExecTag.selectAuthid], ?_, by decide⟩
        simp [user_alter, alterBranchOne, alterBranchOneRest, huser, ha, hp, hpw, hout]
    | some e =>
        refine ⟨[ExecTag.selectAuthid, ExecTag.castExpires], ?_, by decide⟩
        simp [user_alter, alterBranchOne, alterBranchOneRest, huser, ha, hp, hpw, hout]
  · intro huser hb hf hchanging hout
    refine ⟨[ExecTag.selectRoles], ?_, by decide⟩
    simp [user_alter, alterBranchTwo, huser, hb, hf, hchanging, hout]

/-- A concrete connection oracle whose ALTER fails with pgcode 25006. -/
def envC7 : AlterEnv :=
  { md5hex := fun s => s
    authid := some attrsC4
    roles := some attrsC4
    castTz := fun _ => none
    alterOutcome := ExecOutcome.internalError "25006" "boom"
    rolesAfter := attrsC4 }

/-- Witness for C7: both branches at concrete inputs. -/
theorem spec_c7_witness :
    (∃ l, user_alter envC7 "alice" (some "pw") "" "ENCRYPTED" none false none =
        AlterResult.failed "boom" false (l ++ [ExecTag.alterUser])
      ∧ ExecTag.alterUser ∉ l)
    ∧ (∃ l, user_alter envC7 "alice" (some "pw") "CREATEDB" "ENCRYPTED" none true none =
        AlterResult.failed "boom" false (l ++ [ExecTag.alterUser])
      ∧ ExecTag.alterUser ∉ l) :=
  ⟨(spec_c7 envC7 "alice" (some "pw") "" "ENCRYPTED" none none "boom" attrsC4 attrsC4).1
      (by decide) rfl rfl (by decide) rfl,
   (spec_c7 envC7 "alice" (some "pw") "CREATEDB" "ENCRYPTED" none none "boom" attrsC4
      attrsC4).2 (by decide) rfl (by decide) (by decide) rfl⟩

/-- Concrete state for C3: both roles exist and r is already a member of g,
so a normal-mode run computes no change. -/
def dbC3 : MDb :=
  { roleExists := fun _ => true
    memberOf := fun r => if r = "r" then ["g"] else [] }

/-- Claim C3 counterexample: a normal-mode (non-check) membership run whose
computed `changed` is False still issues a commit, refuting "a commit is
issued iff the invocation reports changed = true"; `postgresql_membership.py`
commits unconditionally outside check mode. -/
theorem spec_c3_counterexample :
    (membership_main dbC3 ["g"] ["r"] true MState.present false).map
        (fun r => (r.changed, r.txn)) = Except.ok (false, TxnAction.commit) := by
  rfl

/-- Claim C3 as amended: in `postgresql_membership.py` the transaction
decision ignores `changed` entirely — rollback in check mode, commit
otherwise; in `postgresql_user.py` a rollback (check mode) or commit
(normal mode) is issued iff `changed` is true, and nothing is issued
otherwise. -/
theorem spec_c3_amended (db : MDb) (groups targets : List String)
    (fail_on_role : Bool) (state : MState) (check_mode changed : Bool)
    (r : MembershipResult) :
    (membership_main db groups targets fail_on_role state check_mode = Except.ok r →
      r.txn = (if check_mode then TxnAction.rollback else TxnAction.commit))
    ∧ user_main_txn check_mode changed =
        (if changed then
          (if check_mode then TxnAction.rollback else TxnAction.commit)
         else TxnAction.noAction) := by
  constructor
  · intro h
    rw [membership_main] at h
    cases hc : check_roles_exist db (groups.map py_strip) (targets.map py_strip)
        fail_on_role with
    | error e => rw [hc] at h; cases h
    | ok cr =>
        rw [hc] at h
        simp only [Except.ok.injEq] at h
        subst h
        rfl
  · rfl

/-- The result record of the concrete C3 run. -/
def resC3 : MembershipResult :=
  { changed := false
    statements := []
    warnings := []
    groups := ["g"]
    target_roles := ["r"]
    granted := [("g", [])]
    revoked := []
    txn := TxnAction.commit }

/-- Witness for C3 as amended, at the concrete run. -/
theorem spec_c3_witness :
    resC3.txn = (if false then TxnAction.rollback else TxnAction.commit) :=
  (spec_c3_amended dbC3 ["g"] ["r"] true MState.present false false resC3).1 (by rfl)

theorem checkGroupsLoop_fail (db : MDb) (l : List String)
    (h : ∃ g ∈ l, db.roleExists g = false) :
    ∃ g, db.roleExists g = false ∧
      checkGroupsLoop db true l = Except.error ("Role " ++ g ++ " does not exist") := by
  induction l with
  | nil => simp at h
  | cons hd tl ih =>
    by_cases hhd : db.roleExists hd
    · obtain ⟨g, hg, hgf⟩ := h
      rcases List.mem_cons.mp hg with rfl | hmem
      · rw [hhd] at hgf; cases hgf
      · obtain ⟨g', hg1, hg2⟩ := ih ⟨g, hmem, hgf⟩
        refine ⟨g', hg1, ?_⟩
        rw [checkGroupsLoop, if_pos hhd]
        exact hg2
    · refine ⟨hd, by simpa using hhd, ?_⟩
      rw [checkGroupsLoop, if_neg hhd]
      simp

theorem checkTargetsLoop_fail (db : MDb) (groups l : List String)
    (h : ∃ r ∈ l, db.roleExists r = false) :
    ∃ r, db.roleExists r = false ∧
      checkTargetsLoop db true groups l =
        Except.error ("Role " ++ r ++ " does not exist") := by
  induction l with
  | nil => simp at h
  | cons hd tl ih =>
    by_cases hhd : db.roleExists hd
    · obtain ⟨r, hr, hrf⟩ := h
      rcases List.mem_cons.mp hr with rfl | hmem
      · rw [hhd] at hrf; cases hrf
      · obtain ⟨r', hr1, hr2⟩ := ih ⟨r, hmem, hrf⟩
        refine ⟨r', hr1, ?_⟩
        rw [checkTargetsLoop, if_pos hhd]
        exact hr2
    · refine ⟨hd, by simpa using hhd, ?_⟩
      rw [checkTargetsLoop, if_neg hhd]
      simp

theorem checkGroupsLoop_all_ok (db : MDb) (fail_on_role : Bool) (l : List String)
    (h : ∀ g ∈ l, db.roleExists g = true) :
    checkGroupsLoop db fail_on_role l = Except.ok ([], []) := by
  induction l with
  | nil => rfl
  | cons hd tl ih =>
    rw [checkGroupsLoop, if_pos (h hd (List.mem_cons_self hd tl))]
    exact ih (fun g hg => h g (List.mem_cons_of_mem hd hg))

theorem checkGroupsLoop_ok (db : MDb) (l : List String) :
    ∃ ws ne, checkGroupsLoop db false l = Except.ok (ws, ne) ∧
      (∀ g ∈ l, db.roleExists g = false →
        g ∈ ne ∧ ("Role " ++ g ++ " does not exist, pass") ∈ ws) := by
  induction l with
  | nil => exact ⟨[], [], rfl, by simp⟩
  | cons hd tl ih =>
    obtain ⟨ws, ne, heq, hprop⟩ := ih
    by_cases hhd : db.roleExists hd
    · refine ⟨ws, ne, ?_, ?_⟩
      · rw [checkGroupsLoop, if_pos hhd]
        exact heq
      · intro g hg hgf
        rcases List.mem_cons.mp hg with rfl | hmem
        · rw [hhd] at hgf; cases hgf
        · exact hprop g hmem hgf
    · refine ⟨("Role " ++ hd ++ " does not exist, pass") :: ws, hd :: ne, ?_, ?_⟩
      · rw [checkGroupsLoop, if_neg hhd]
        simp only [Bool.false_eq_true, if_false, heq]
      · intro g hg hgf
        rcases List.mem_cons.mp hg with rfl | hmem
        · exact ⟨List.mem_cons_self _ _, List.mem_cons_self _ _⟩
        · obtain ⟨h1, h2⟩ := hprop g hmem hgf
          exact ⟨List.mem_cons_of_mem _ h1, List.mem_cons_of_mem _ h2⟩

theorem checkTargetsLoop_ok (db : MDb) (groups l : List String) :
    ∃ ws ne, checkTargetsLoop db false groups l = Except.ok (ws, ne) ∧
      (∀ r ∈ l, db.roleExists r = false →
        ("Role " ++ r ++ " does not exist, pass") ∈ ws ∧ (r ∉ groups → r ∈ ne)) := by
  induction l with
  | nil => exact ⟨[], [], rfl, by simp⟩
  | cons hd tl ih =>
    obtain ⟨ws, ne, heq, hprop⟩ := ih
    by_cases hhd : db.roleExists hd
    · refine ⟨ws, ne, ?_, ?_⟩
      · rw [checkTargetsLoop, if_pos hhd]
        exact heq
      · intro r hr hrf
        rcases List.mem_cons.mp hr with rfl | hmem
        · rw [hhd] at hrf; cases hrf
        · exact hprop r hmem hrf
    · by_cases hgrp : hd ∈ groups
      · refine ⟨("Role " ++ hd ++ " does not exist, pass")
            :: ("Role role " ++ hd ++ " is a member of role " ++ hd ++ ", pass") :: ws,
            ne, ?_, ?_⟩
        · rw [checkTargetsLoop, if_neg hhd]
          simp only [Bool.false_eq_true, if_false, heq, if_pos hgrp]
        · intro r hr hrf
          rcases List.mem_cons.mp hr with rfl | hmem
          · exact ⟨List.mem_cons_self _ _, fun hn => absurd hgrp hn⟩
          · obtain ⟨h1, h2⟩ := hprop r hmem hrf
            exact ⟨List.mem_cons_of_mem _ (List.mem_cons_of_mem _ h1), h2⟩
      · refine ⟨("Role " ++ hd ++ " does not exist, pass") :: ws, hd :: ne, ?_, ?_⟩
        · rw [checkTargetsLoop, if_neg hhd]
          simp only [Bool.false_eq_true, if_false, heq, if_neg hgrp]
        · intro r hr hrf
          rcases List.mem_cons.mp hr with rfl | hmem
          · exact ⟨List.mem_cons_self _ _, fun _ => List.mem_cons_self _ _⟩
          · obtain ⟨h1, h2⟩ := hprop r hmem hrf
            exact ⟨List.mem_cons_of_mem _ h1, fun hn => List.mem_cons_of_mem _ (h2 hn)⟩

theorem grantInner_shape (db : MDb) (g : String) (l : List String) :
    ∀ s ∈ (grantInner db g l).1, ∃ r ∈ l, s = MStmt.grantRole g r := by
  induction l with
  | nil => simp [grantInner]
  | cons hd tl ih =>
    intro s hs
    by_cases hc : check_membership db g hd
    · rw [grantInner, if_pos hc] at hs
      obtain ⟨r, hr, hsr⟩ := ih s hs
      exact ⟨r, List.mem_cons_of_mem _ hr, hsr⟩
    · rw [grantInner, if_neg hc] at hs
      rcases List.mem_cons.mp hs with rfl | hmem
      · exact ⟨hd, List.mem_cons_self _ _, rfl⟩
      · obtain ⟨r, hr, hsr⟩ := ih s hmem
        exact ⟨r, List.mem_cons_of_mem _ hr, hsr⟩

theorem grantOuter_shape (db : MDb) (ts gs : List String) :
    ∀ s ∈ (grantOuter db ts gs).1, ∃ g ∈ gs, ∃ r ∈ ts, s = MStmt.grantRole g r := by
  induction gs with
  | nil => simp [grantOuter]
  | cons hd tl ih =>
    intro s hs
    rw [grantOuter] at hs
    rcases List.mem_append.mp hs with hmem | hmem
    · obtain ⟨r, hr, hsr⟩ := grantInner_shape db hd ts s hmem
      exact ⟨hd, List.mem_cons_self _ _, r, hr, hsr⟩
    · obtain ⟨g, hg, r, hr, hsr⟩ := ih s hmem
      exact ⟨g, List.mem_cons_of_mem _ hg, r, hr, hsr⟩

theorem revokeInner_shape (db : MDb) (g : String) (l : List String) :
    ∀ s ∈ (revokeInner db g l).1, ∃ r ∈ l, s = MStmt.revokeRole g r := by
  induction l with
  | nil => simp [revokeInner]
  | cons hd tl ih =>
    intro s hs
    by_cases hc : check_membership db g hd
    · rw [revokeInner] at hs
      simp only [hc, Bool.not_true, Bool.false_eq_true, if_false] at hs
      rcases List.mem_cons.mp hs with rfl | hmem
      · exact ⟨hd, List.mem_cons_self _ _, rfl⟩
      · obtain ⟨r, hr, hsr⟩ := ih s hmem
        exact ⟨r, List.mem_cons_of_mem _ hr, hsr⟩
    · rw [revokeInner] at hs
      simp only [hc, Bool.not_false, if_true] at hs
      obtain ⟨r, hr, hsr⟩ := ih s hs
      exact ⟨r, List.mem_cons_of_mem _ hr, hsr⟩

theorem revokeOuter_shape (db : MDb) (ts gs : List String) :
    ∀ s ∈ (revokeOuter db ts gs).1, ∃ g ∈ gs, ∃ r ∈ ts, s = MStmt.revokeRole g r := by
  induction gs with
  | nil => simp [revokeOuter]
  | cons hd tl ih =>
    intro s hs
    rw [revokeOuter] at hs
    rcases List.mem_append.mp hs with hmem | hmem
    · obtain ⟨r, hr, hsr⟩ := revokeInner_shape db hd ts s hmem
      exact ⟨hd, List.mem_cons_self _ _, r, hr, hsr⟩
    · obtain ⟨g, hg, r, hr, hsr⟩ := ih s hmem
      exact ⟨g, List.mem_cons_of_mem _ hg, r, hr, hsr⟩

/-- Claim C5: every named group and target role is existence-checked before
any membership statement is planned.  With `fail_on_role` the whole
operation aborts with an error naming a missing role (and no result, hence
zero statements); without it, every missing named role is warned about with
the "does not exist, pass" message, is excluded from the surviving group and
target-role lists, no planned statement references any non-existent role,
and processing continues over the remaining roles. -/
theorem spec_c5 (db : MDb) (groups targets : List String) (state : MState)
    (check_mode : Bool) :
    ((∃ r, r ∈ groups.map py_strip ++ targets.map py_strip ∧ db.roleExists r = false) →
      ∃ r', db.roleExists r' = false ∧
        membership_main db groups targets true state check_mode =
          Except.error ("Role " ++ r' ++ " does not exist"))
    ∧ ∃ res, membership_main db groups targets false state check_mode = Except.ok res
        ∧ (∀ r', r' ∈ groups.map py_strip ++ targets.map py_strip →
             db.roleExists r' = false →
               ("Role " ++ r' ++ " does not exist, pass") ∈ res.warnings
               ∧ r' ∉ res.groups ∧ r' ∉ res.target_roles)
        ∧ (∀ stmt ∈ res.statements, ∀ r', db.roleExists r' = false →
             ¬ stmt.refersTo r') := by
  constructor
  · rintro ⟨r, hr, hrf⟩
    by_cases hg : ∃ g ∈ groups.map py_strip, db.roleExists g = false
    · obtain ⟨g', hg1, hg2⟩ := checkGroupsLoop_fail db _ hg
      refine ⟨g', hg1, ?_⟩
      simp only [membership_main, check_roles_exist, hg2]
    · have hall : ∀ g ∈ groups.map py_strip, db.roleExists g = true := by
        intro g hgm
        cases hrx : db.roleExists g with
        | true => rfl
        | false => exact absurd ⟨g, hgm, hrx⟩ hg
      have hge := checkGroupsLoop_all_ok db true (groups.map py_strip) hall
      have ht : ∃ x ∈ targets.map py_strip, db.roleExists x = false := by
        rcases List.mem_append.mp hr with h | h
        · rw [hall r h] at hrf; cases hrf
        · exact ⟨r, h, hrf⟩
      obtain ⟨r', h1, h2⟩ := checkTargetsLoop_fail db (groups.map py_strip) _ ht
      refine ⟨r', h1, ?_⟩
      simp only [membership_main, check_roles_exist, hge, h2]
  · obtain ⟨w1, ne1, heq1, hp1⟩ := checkGroupsLoop_ok db (groups.map py_strip)
    obtain ⟨w2, ne2, heq2, hp2⟩ :=
      checkTargetsLoop_ok db (groups.map py_strip) (targets.map py_strip)
    have hcre : check_roles_exist db (groups.map py_strip) (targets.map py_strip) false =
        Except.ok
          { groups := (groups.map py_strip).filter (fun g => decide (g ∉ ne1 ++ ne2))
            target_roles := (targets.map py_strip).filter (fun r => decide (r ∉ ne1 ++ ne2))
            warnings := w1 ++ w2
            non_existent_roles := ne1 ++ ne2 } := by
      simp only [check_roles_exist, heq1, heq2]
    have hne : ∀ r', r' ∈ groups.map py_strip ++ targets.map py_strip →
        db.roleExists r' = false → r' ∈ ne1 ++ ne2 := by
      intro r' hmem hrf
      by_cases hging : r' ∈ groups.map py_strip
      · exact List.mem_append.mpr (Or.inl (hp1 r' hging hrf).1)
      · rcases List.mem_append.mp hmem with h | h
        · exact absurd h hging
        · exact List.mem_append.mpr (Or.inr ((hp2 r' h hrf).2 hging))
    have hwarn : ∀ r', r' ∈ groups.map py_strip ++ targets.map py_strip →
        db.roleExists r' = false →
        ("Role " ++ r' ++ " does not exist, pass") ∈ w1 ++ w2 := by
      intro r' hmem hrf
      rcases List.mem_append.mp hmem with h | h
      · exact List.mem_append.mpr (Or.inl (hp1 r' h hrf).2)
      · exact List.mem_append.mpr (Or.inr (hp2 r' h hrf).1)
    have hfiltg : ∀ x ∈ (groups.map py_strip).filter (fun g => decide (g ∉ ne1 ++ ne2)),
        db.roleExists x = true := by
      intro x hx
      obtain ⟨hxg, hxc⟩ := List.mem_filter.mp hx
      cases hrx : db.roleExists x with
      | true => rfl
      | false =>
          exact absurd (List.mem_append.mpr (Or.inl (hp1 x hxg hrx).1))
            (of_decide_eq_true hxc)
    have hfiltt : ∀ x ∈ (targets.map py_strip).filter (fun r => decide (r ∉ ne1 ++ ne2)),
        db.roleExists x = true := by
      intro x hx
      obtain ⟨hxt, hxc⟩ := List.mem_filter.mp hx
      cases hrx : db.roleExists x with
      | true => rfl
      | false =>
          by_cases hging : x ∈ groups.map py_strip
          · exact absurd (List.mem_append.mpr (Or.inl (hp1 x hging hrx).1))
              (of_decide_eq_true hxc)
          · exact absurd (List.mem_append.mpr (Or.inr ((hp2 x hxt hrx).2 hging)))
              (of_decide_eq_true hxc)
    have hnotmem : ∀ r', r' ∈ groups.map py_strip ++ targets.map py_strip →
        db.roleExists r' = false →
        r' ∉ (groups.map py_strip).filter (fun g => decide (g ∉ ne1 ++ ne2))
        ∧ r' ∉ (targets.map py_strip).filter (fun r => decide (r ∉ ne1 ++ ne2)) := by
      intro r' hmem hrf
      constructor
      · intro hmem'
        rw [hfiltg r' hmem'] at hrf
        cases hrf
      · intro hmem'
        rw [hfiltt r' hmem'] at hrf
        cases hrf
    cases state with
    | present =>
        refine ⟨{
            changed := !(grantOuter db
              ((targets.map py_strip).filter (fun r => decide (r ∉ ne1 ++ ne2)))
              ((groups.map py_strip).filter (fun g => decide (g ∉ ne1 ++ ne2)))).1.isEmpty
            statements := (grantOuter db
              ((targets.map py_strip).filter (fun r => decide (r ∉ ne1 ++ ne2)))
              ((groups.map py_strip).filter (fun g => decide (g ∉ ne1 ++ ne2)))).1
            warnings := w1 ++ w2
            groups := (groups.map py_strip).filter (fun g => decide (g ∉ ne1 ++ ne2))
            target_roles := (targets.map py_strip).filter (fun r => decide (r ∉ ne1 ++ ne2))
            granted := (grantOuter db
              ((targets.map py_strip).filter (fun r => decide (r ∉ ne1 ++ ne2)))
              ((groups.map py_strip).filter (fun g => decide (g ∉ ne1 ++ ne2)))).2
            revoked := []
            txn := if check_mode then TxnAction.rollback else TxnAction.commit },
          ?_, ?_, ?_⟩
        · simp only [membership_main, hcre]
        · intro r' hmem hrf
          exact ⟨hwarn r' hmem hrf, (hnotmem r' hmem hrf).1, (hnotmem r' hmem hrf).2⟩
        · intro stmt hstmt r' hrf
          obtain ⟨g, hgmem, r, hrmem, rfl⟩ := grantOuter_shape db _ _ stmt hstmt
          intro href
          simp only [MStmt.refersTo] at href
          rcases href with h | h
          · rw [h, hfiltg g hgmem] at hrf; cases hrf
          · rw [h, hfiltt r hrmem] at hrf; cases hrf
    | absent =>
        refine ⟨{
            changed := !(revokeOuter db
              ((targets.map py_strip).filter (fun r => decide (r ∉ ne1 ++ ne2)))
              ((groups.map py_strip).filter (fun g => decide (g ∉ ne1 ++ ne2)))).1.isEmpty
            statements := (revokeOuter db
              ((targets.map py_strip).filter (fun r => decide (r ∉ ne1 ++ ne2)))
              ((groups.map py_strip).filter (fun g => decide (g ∉ ne1 ++ ne2)))).1
            warnings := w1 ++ w2
            groups := (groups.map py_strip).filter (fun g => decide (g ∉ ne1 ++ ne2))
            target_roles := (targets.map py_strip).filter (fun r => decide (r ∉ ne1 ++ ne2))
            granted := []
            revoked := (revokeOuter db
              ((targets.map py_strip).filter (fun r => decide (r ∉ ne1 ++ ne2)))
              ((groups.map py_strip).filter (fun g => decide (g ∉ ne1 ++ ne2)))).2
            txn := if check_mode then TxnAction.rollback else TxnAction.commit },
          ?_, ?_, ?_⟩
        · simp only [membership_main, hcre]
        · intro r' hmem hrf
          exact ⟨hwarn r' hmem hrf, (hnotmem r' hmem hrf).1, (hnotmem r' hmem hrf).2⟩
        · intro stmt hstmt r' hrf
          obtain ⟨g, hgmem, r, hrmem, rfl⟩ := revokeOuter_shape db _ _ stmt hstmt
          intro href
          simp only [MStmt.refersTo] at href
          rcases href with h | h
          · rw [h, hfiltg g hgmem] at hrf; cases hrf
          · rw [h, hfiltt r hrmem] at hrf; cases hrf

/-- Concrete state for the C5 witness: group g is missing, role r exists. -/
def dbC5 : MDb :=
  { roleExists := fun r => r != "g"
    memberOf := fun _ => [] }

/-- Witness for C5: with `fail_on_role` the run aborts naming the missing
role. -/
theorem spec_c5_witness :
    ∃ r', dbC5.roleExists r' = false ∧
      membership_main dbC5 ["g"] ["r"] true MState.present false =
        Except.error ("Role " ++ r' ++ " does not exist") :=
  (spec_c5 dbC5 ["g"] ["r"] MState.present false).1 ⟨"g", by decide, by decide⟩
